import Mathlib

/-!
Shallow embedding of the `db_manager` repository (src/data_processor.py,
src/validator.py, src/database_manager.py) and proofs about its
schema-driven CSV coercion/validation pipeline.

Python values that flow through the pipeline are modelled by `PyVal`;
Python floats are modelled as exact rationals (no claim below depends on
floating-point rounding).  Python exceptions are modelled with `Except`.
-/

namespace DbManager

/-- A Python runtime value as used by the processor: cells read from CSV are
strings; coercion produces ints, floats, bools, strings or `None`.  A finite
float is carried as the exact rational value of its IEEE-754 binary64
representation (every constructed float goes through `roundDouble` below);
`pyInf` is the float infinity of the given sign. -/
inductive PyVal where
  | pyStr : String → PyVal
  | pyInt : Int → PyVal
  | pyBool : Bool → PyVal
  | pyFloat : ℚ → PyVal
  | pyInf : Bool → PyVal
  | pyNone : PyVal
deriving Repr, DecidableEq

/-- Python exceptions raised by the embedded code. -/
inductive PyErr where
  | valueError
  | typeError
  | stopIteration
  | parseError
  | overflowError
deriving Repr, DecidableEq

instance {ε α : Type} [DecidableEq ε] [DecidableEq α] : DecidableEq (Except ε α)
  | .ok a, .ok b => if h : a = b then .isTrue (by rw [h]) else .isFalse (by simp [h])
  | .error e, .error f => if h : e = f then .isTrue (by rw [h]) else .isFalse (by simp [h])
  | .ok _, .error _ => .isFalse (by simp)
  | .error _, .ok _ => .isFalse (by simp)

/-- Numeric view used by Python `==`: bools compare equal to ints
(`True == 1`), ints compare equal to floats. -/
def toNum : PyVal → Option ℚ
  | .pyInt n => some (n : ℚ)
  | .pyBool b => some (if b then 1 else 0)
  | .pyFloat q => some q
  | _ => none

/-- Python `==` on the values above: numeric cross-type equality (an
infinity equals only the same-signed infinity), string equality,
`None == None`; everything else unequal. -/
def pyEq (a b : PyVal) : Bool :=
  match toNum a, toNum b with
  | some x, some y => x == y
  | _, _ =>
    match a, b with
    | .pyStr s, .pyStr t => s == t
    | .pyInf x, .pyInf y => x == y
    | .pyNone, .pyNone => true
    | _, _ => false

/-- Python `cell in lst` (membership via `==`). -/
def pyIn (cell : PyVal) (lst : List PyVal) : Bool :=
  lst.any (fun v => pyEq cell v)

/-- Python truthiness (`if not cell:`): empty string, 0, False, None are falsy. -/
def pyTruthy : PyVal → Bool
  | .pyStr s => !s.isEmpty
  | .pyInt n => n != 0
  | .pyBool b => b
  | .pyFloat q => q != 0
  | .pyInf _ => true
  | .pyNone => false

/-- `isinstance(v, int)` — Python bools are instances of `int`. -/
def isInstInt : PyVal → Bool
  | .pyInt _ => true
  | .pyBool _ => true
  | _ => false

/-- `isinstance(v, float)` — the float infinities are floats. -/
def isInstFloat : PyVal → Bool
  | .pyFloat _ => true
  | .pyInf _ => true
  | _ => false

/-- `isinstance(v, str)`. -/
def isInstStr : PyVal → Bool
  | .pyStr _ => true
  | _ => false

/-- `isinstance(v, bool)`. -/
def isInstBool : PyVal → Bool
  | .pyBool _ => true
  | _ => false

/-! ### Python `int()` / `float()` on strings -/

/-- Decimal value of a digit list (most significant first). -/
def natOfDigits (cs : List Char) : Nat :=
  cs.foldl (fun a c => a * 10 + (c.toNat - 48)) 0

/-- After an initial digit, Python's number grammar accepts further digits
with single underscores strictly between digits (PEP 515); `fl` records
that the previous character was an underscore (so the next must be a
digit).  Returns the digit list with the underscores removed. -/
def digitsTail (fl : Bool) : List Char → Option (List Char)
  | [] => if fl then none else some []
  | c :: rest =>
    if c.isDigit then (digitsTail false rest).map (fun ds => c :: ds)
    else if c == '_' then (if fl then none else digitsTail true rest)
    else none

/-- A nonempty run of decimal digits with optional PEP 515 underscores;
yields the pure digit list.  (Python also accepts non-ASCII Unicode decimal
digits; the model covers the ASCII digits, and the theorems that depend on
a parse *failure* are stated for ASCII cells only.) -/
def digitsCore : List Char → Option (List Char)
  | [] => none
  | c :: rest =>
    if c.isDigit then (digitsTail false rest).map (fun ds => c :: ds) else none

/-- The decimal value of a digit-and-underscore run, when well formed. -/
def digitsVal (cs : List Char) : Option Nat :=
  (digitsCore cs).map natOfDigits

/-- ASCII characters Python's number parsers strip as whitespace (the
ASCII part of `str.isspace`, including the `\x1c`-`\x1f` separators). -/
def isPySpace (c : Char) : Bool :=
  c == ' ' || c == '\t' || c == '\n' || c == '\r' || c == '\x0b' || c == '\x0c' ||
    (28 ≤ c.toNat && c.toNat ≤ 31)

/-- `s.strip()` on the character list (ASCII whitespace). -/
def trimChars (cs : List Char) : List Char :=
  ((cs.dropWhile isPySpace).reverse.dropWhile isPySpace).reverse

/-- Whether the (trimmed) literal starts with a `-` sign. -/
def signNeg : List Char → Bool
  | '-' :: _ => true
  | _ => false

/-- Strip one optional leading `+`/`-` sign. -/
def signBody : List Char → List Char
  | '+' :: t => t
  | '-' :: t => t
  | t => t

/-- A Python float: the exact rational value of a finite IEEE-754 binary64
number, or a signed infinity.  (A NaN never arises in the embedded code:
the string `"NaN"` is caught by the null-sentinel test and other NaN
spellings fail `int()` first.) -/
inductive PyFloat where
  | finite : ℚ → PyFloat
  | inf : Bool → PyFloat
deriving Repr, DecidableEq

/-- `2^e ≤ p/d` for a positive rational given by numerator and denominator
(pure `Nat` arithmetic). -/
def pow2Le (e : ℤ) (p d : Nat) : Bool :=
  match e with
  | .ofNat k => d * 2 ^ k ≤ p
  | .negSucc k => d ≤ p * 2 ^ (k + 1)

/-- Search for `⌊log₂ (p/d)⌋`: starting from exponent `e`, climb while
`2^(e+1) ≤ p/d` and descend while `p/d < 2^e`.  The path is monotone, so
the answer is reached within the fuel passed by `ilog2`. -/
def ilog2Go (p d : Nat) : Nat → ℤ → ℤ
  | 0, e => e
  | fuel + 1, e =>
    if pow2Le (e + 1) p d then ilog2Go p d fuel (e + 1)
    else if pow2Le e p d then e
    else ilog2Go p d fuel (e - 1)

/-- `⌊log₂ |q|⌋` for a nonzero rational (`p + d + 2` far exceeds
`|⌊log₂ (p/d)⌋|`, so the search always completes). -/
def ilog2 (q : ℚ) : ℤ :=
  ilog2Go q.num.natAbs q.den (q.num.natAbs + q.den + 2) 0

/-- Round the nonnegative fraction `P/Q` (with `Q ≠ 0`) to the nearest
integer, ties to even. -/
def roundHalfEven (P Q : Nat) : Nat :=
  let fl := P / Q
  let r := P % Q
  if 2 * r < Q then fl
  else if Q < 2 * r then fl + 1
  else if fl % 2 = 0 then fl else fl + 1

/-- Round an exact rational to the nearest IEEE-754 binary64 value
(round-to-nearest, ties-to-even), as CPython's `float()` does: integers of
magnitude below `2^53` are exactly representable; otherwise scale `|q|` by
`2^e` (with `e = ⌊log₂|q|⌋ − 52`, clamped at the subnormal floor −1074)
into a 53-bit significand, round half-to-even, and overflow to the signed
infinity at `2^1024`.  (A negative scaled exponent means the magnitude is
below `2^53`, so no overflow is possible on that branch.) -/
def roundDouble (q : ℚ) : PyFloat :=
  if q = 0 then .finite 0
  else
    let neg := decide (q < 0)
    let p := q.num.natAbs
    let d := q.den
    if d = 1 ∧ p < 2 ^ 53 then .finite q
    else
      match max (ilog2 q - 52) (-1074) with
      | .ofNat k =>
        let m := roundHalfEven p (d * 2 ^ k)
        if 2 ^ 1024 ≤ m * 2 ^ k then .inf neg
        else
          let v : ℚ := ((m * 2 ^ k : Nat) : ℚ)
          .finite (if neg then -v else v)
      | .negSucc k =>
        let m := roundHalfEven (p * 2 ^ (k + 1)) d
        let v : ℚ := mkRat (m : Int) (2 ^ (k + 1))
        .finite (if neg then -v else v)

/-- Python `int(s)` on the character list of a string: optional surrounding
whitespace, optional sign, then a nonempty run of decimal digits with
optional PEP 515 underscores; anything else raises. -/
def pyIntOfChars (cs : List Char) : Option Int :=
  (digitsVal (signBody (trimChars cs))).map
    (fun (k : Nat) => if signNeg (trimChars cs) then -(k : Int) else (k : Int))

/-- Python `int(s)` on a string. -/
def pyIntOfString (s : String) : Option Int :=
  pyIntOfChars s.toList

/-- Exact value of the mantissa of a Python float literal: `D+`, `D+.D*`
or `D*.D+`, each digit run with optional PEP 515 underscores.
(Exponent/inf/nan forms are unreachable in `process_numeric`, because
`int(cell)` is evaluated first and raises on them.) -/
def floatBody (body : List Char) : Option ℚ :=
  let ip := body.takeWhile (fun c => c != '.')
  match body.dropWhile (fun c => c != '.') with
  | [] => (digitsVal ip).map (fun k => (k : ℚ))
  | '.' :: fp =>
    match ip, fp with
    | [], [] => none
    | [], _ =>
      (digitsCore fp).map (fun ds => (natOfDigits ds : ℚ) / (10 : ℚ) ^ ds.length)
    | _, [] => (digitsVal ip).map (fun k => (k : ℚ))
    | _, _ =>
      match digitsVal ip, digitsCore fp with
      | some k, some ds =>
        some ((k : ℚ) + (natOfDigits ds : ℚ) / (10 : ℚ) ^ ds.length)
      | _, _ => none
  | _ => none

/-- Python `float(s)` on the character list of a string: the exact decimal
value, correctly rounded to binary64 (C `strtod` overflows to infinity). -/
def pyFloatOfChars (cs : List Char) : Option PyFloat :=
  (floatBody (signBody (trimChars cs))).map
    (fun (q : ℚ) => roundDouble (if signNeg (trimChars cs) then -q else q))

/-- Python `float(s)` on a string. -/
def pyFloatOfString (s : String) : Option PyFloat :=
  pyFloatOfChars s.toList

/-- Python `int(cell)` on any value: strings parse, floats truncate toward
zero (infinities raise `OverflowError`), bools map to 0/1, `None` raises
`TypeError`. -/
def pyIntOf : PyVal → Except PyErr Int
  | .pyStr s =>
    match pyIntOfString s with
    | some n => .ok n
    | none => .error .valueError
  | .pyInt n => .ok n
  | .pyBool b => .ok (if b then 1 else 0)
  | .pyFloat q => .ok (if 0 ≤ q then ⌊q⌋ else ⌈q⌉)
  | .pyInf _ => .error .overflowError
  | .pyNone => .error .typeError

/-- Python `float(cell)` on any value: strings parse, an int converts by
binary64 rounding (raising `OverflowError` when too large for a double),
floats pass through, `None` raises `TypeError`. -/
def pyFloatOf : PyVal → Except PyErr PyFloat
  | .pyStr s =>
    match pyFloatOfString s with
    | some f => .ok f
    | none => .error .valueError
  | .pyInt n =>
    match roundDouble (n : ℚ) with
    | .finite q => .ok (.finite q)
    | .inf _ => .error .overflowError
  | .pyBool b => .ok (.finite (if b then 1 else 0))
  | .pyFloat q => .ok (.finite q)
  | .pyInf b => .ok (.inf b)
  | .pyNone => .error .typeError

/-! ### CSVProcessor literal sets and cell processors (src/data_processor.py) -/

/-- `CSVProcessor.TRUE_VALUES`. -/
def TRUE_VALUES : List PyVal :=
  [.pyStr "true", .pyStr "True", .pyStr "TRUE", .pyStr "1", .pyInt 1, .pyBool true, .pyStr "t"]

/-- `CSVProcessor.FALSE_VALUES`. -/
def FALSE_VALUES : List PyVal :=
  [.pyStr "false", .pyStr "False", .pyStr "FALSE", .pyStr "0", .pyInt 0, .pyBool false, .pyStr "f"]

/-- `CSVProcessor.NULL_VALUES`. -/
def NULL_VALUES : List PyVal :=
  [.pyStr "NaN", .pyStr "null", .pyNone, .pyStr ""]

/-- `CSVProcessor.process_numeric`: null sentinels fail (strict) or give
`0`/`None` (lenient, per `use_zero_for_null_numerics`); otherwise the code
evaluates `int(cell) == float(cell)` — `int(cell)` first, which raises on
non-integer strings — and returns `int(cell)` on equality, else
`float(cell)`.  Python compares an int with a float exactly, and an int is
never equal to an infinity. -/
def process_numeric (strict useZero : Bool) (cell : PyVal) : Except PyErr PyVal :=
  if pyIn cell NULL_VALUES then
    if strict then .error .valueError
    else .ok (if useZero then .pyInt 0 else .pyNone)
  else
    match pyIntOf cell with
    | .error e => .error e
    | .ok n =>
      match pyFloatOf cell with
      | .error e => .error e
      | .ok (.finite q) => if (n : ℚ) = q then .ok (.pyInt n) else .ok (.pyFloat q)
      | .ok (.inf b) => .ok (.pyInf b)

/-- `CSVProcessor.process_boolean`. -/
def process_boolean (strict : Bool) (cell : PyVal) : Except PyErr PyVal :=
  if pyIn cell TRUE_VALUES then .ok (.pyBool true)
  else if pyIn cell FALSE_VALUES then .ok (.pyBool false)
  else if strict then .error .valueError
  else .ok .pyNone

/-- `CSVProcessor.process_generic_cell` (default `field_type="string"`). -/
def process_generic_cell (strict useZero : Bool) (cell : PyVal) (field_type : String) :
    Except PyErr PyVal :=
  if !pyTruthy cell then
    if strict then .error .valueError
    else if field_type == "string" then .ok (.pyStr "")
    else if field_type == "number" then .ok (if useZero then .pyInt 0 else .pyNone)
    else if field_type == "integer" then .ok (if useZero then .pyInt 0 else .pyNone)
    else if field_type == "boolean" then .ok (.pyBool false)
    else if field_type == "datetime" then .ok .pyNone
    else .ok .pyNone
  else .ok cell

/-- `CSVProcessor.process_enum` (cells from `csv.reader` are strings, and the
declared enum values in the schema are strings). -/
def process_enum (strict : Bool) (cell : String) (enum_values : List String) :
    Except PyErr PyVal :=
  if enum_values.contains cell then .ok (.pyStr cell)
  else if strict then .error .valueError
  else .ok .pyNone

/-! ### Schema model and Validator (src/validator.py) -/

/-- One entry of `schema["properties"]`: declared primitive type, optional
`format`, optional `enum` value list. -/
structure FieldDef where
  type : String
  format : Option String := none
  enumVals : Option (List String) := none
deriving Repr, DecidableEq

/-- A JSON-style schema: ordered `properties` plus the `required` name list. -/
structure Schema where
  properties : List (String × FieldDef)
  required : List String
deriving Repr, DecidableEq

/-- `Validator.is_valid_email`: `re.match(r"[^@]+@[^@]+\.[^@]+", email)`.
`re.match` anchors at the start only, so the test is: a nonempty run of
non-`@` characters, the first `@`, then (scanning without crossing another
`@`) a `.` preceded by at least one character and followed by a non-`@`
character.  `emailScanTail` performs that scan after the first `@`. -/
def emailScanTail : Bool → List Char → Bool
  | _, [] => false
  | seen, c :: rest =>
    if c == '@' then false
    else if c == '.' && seen then
      match rest with
      | [] => false
      | d :: _ => if d != '@' then true else emailScanTail true rest
    else emailScanTail true rest

/-- Whether `re.match(r"[^@]+@[^@]+\.[^@]+", s)` finds a match. -/
def emailMatch (s : String) : Bool :=
  let cs := s.toList
  let a := cs.takeWhile (fun c => c != '@')
  match cs.dropWhile (fun c => c != '@') with
  | '@' :: after => !a.isEmpty && emailScanTail false after
  | _ => false

/-- `Validator.is_valid_email` applied to a runtime value: `re.match` raises
`TypeError` when the argument is not a string. -/
def is_valid_email (v : PyVal) : Except PyErr Bool :=
  match v with
  | .pyStr s => .ok (emailMatch s)
  | _ => .error .typeError

/-- The 19-character core `\d{4}-\d{2}-\d{2}T\d{2}:\d{2}:\d{2}` of the
date-time pattern in `Validator.is_valid_datetime`. -/
def dtBase : List Char → Bool
  | [y1, y2, y3, y4, c1, m1, m2, c2, d1, d2, ct, h1, h2, c3, n1, n2, c4, s1, s2] =>
    y1.isDigit && y2.isDigit && y3.isDigit && y4.isDigit && c1 == '-' &&
    m1.isDigit && m2.isDigit && c2 == '-' && d1.isDigit && d2.isDigit &&
    ct == 'T' && h1.isDigit && h2.isDigit && c3 == ':' &&
    n1.isDigit && n2.isDigit && c4 == ':' && s1.isDigit && s2.isDigit
  | _ => false

/-- The optional `(Z|[+-]\d{2}:\d{2})?$` tail of the date-time pattern. -/
def dtTail : List Char → Bool
  | [] => true
  | ['Z'] => true
  | [sg, o1, o2, cc, o3, o4] =>
    (sg == '+' || sg == '-') && o1.isDigit && o2.isDigit && cc == ':' &&
    o3.isDigit && o4.isDigit
  | _ => false

/-- Whether the anchored date-time regex of `Validator.is_valid_datetime`
matches the whole string. -/
def dtMatch (s : String) : Bool :=
  let cs := s.toList
  dtBase (cs.take 19) && dtTail (cs.drop 19)

/-- `Validator.is_valid_datetime` applied to a runtime value; `re.match`
raises `TypeError` on non-strings. -/
def is_valid_datetime (v : PyVal) : Except PyErr Bool :=
  match v with
  | .pyStr s => .ok (dtMatch s)
  | _ => .error .typeError

/-- `key in row_dict` for the assoc-list model of a dict. -/
def hasKey (row : List (String × PyVal)) (key : String) : Bool :=
  (row.map Prod.fst).contains key

/-- The per-field check loop of `Validator.validate_data_against_schema`
for one row: required check, type checks, then format checks, short-circuiting
to `False` on the first violation (schema field names are unique, so assoc-list
lookup matches dict lookup; `row_dict.get(key)` defaults to `None`). -/
def checkFields (req : List String) (row : List (String × PyVal)) :
    List (String × FieldDef) → Except PyErr Bool
  | [] => .ok true
  | (key, d) :: rest =>
    if !hasKey row key && req.contains key then .ok false
    else
      let value := (List.lookup key row).getD .pyNone
      if d.type == "integer" && !isInstInt value then .ok false
      else if d.type == "number" && (!isInstFloat value && !isInstInt value) then .ok false
      else if d.type == "string" && !isInstStr value then .ok false
      else if d.type == "boolean" && !isInstBool value then .ok false
      else if d.format == some "email" then
        match is_valid_email value with
        | .error e => .error e
        | .ok true => checkFields req row rest
        | .ok false => .ok false
      else if d.format == some "date-time" then
        match is_valid_datetime value with
        | .error e => .error e
        | .ok true => checkFields req row rest
        | .ok false => .ok false
      else checkFields req row rest

/-- `Validator.validate_data_against_schema`: checks every row of the batch,
returning `False` as soon as any field of any row fails. -/
def validate_data_against_schema (data : List (List (String × PyVal))) (schema : Schema) :
    Except PyErr Bool :=
  match data with
  | [] => .ok true
  | row :: rest =>
    match checkFields schema.required row schema.properties with
    | .error e => .error e
    | .ok true => validate_data_against_schema rest schema
    | .ok false => .ok false

/-! ### CSVProcessor orchestration (src/data_processor.py, process_csv) -/

/-- The processor configuration attributes threaded through the run.
`dtParse` abstracts the external `dateutil.parser.parse(...).isoformat()`
collaborator (not part of this repository): `some iso` on success, `none`
when the parse raises. -/
structure Config where
  strict : Bool
  useZero : Bool
  csvHasHeader : Bool
  dtParse : String → Option String

/-- `CSVProcessor.process_datetime`. -/
def process_datetime (cfg : Config) (s : String) : Except PyErr PyVal :=
  match cfg.dtParse s with
  | some iso => .ok (.pyStr iso)
  | none => if cfg.strict then .error .parseError else .ok .pyNone

/-- The three handlers named by `CSVProcessor.SCHEMA_PROCESSING_MAP`. -/
inductive ProcKind where
  | numeric
  | generic
  | boolean
deriving Repr, DecidableEq

/-- `CSVProcessor.SCHEMA_PROCESSING_MAP.get(data_type)`. -/
def schemaProcessingMap (t : String) : Option ProcKind :=
  if t == "integer" then some .numeric
  else if t == "string" then some .generic
  else if t == "boolean" then some .boolean
  else none

/-- `value.get("enum")` used as a truthy test: present and nonempty. -/
def enumTruthy (fd : FieldDef) : Bool :=
  match fd.enumVals with
  | some l => !l.isEmpty
  | none => false

/-- Whether the field dispatch in the row loop finds a processing route
(enum, date-time format, or a type listed in `SCHEMA_PROCESSING_MAP`). -/
def hasRule (fd : FieldDef) : Bool :=
  enumTruthy fd || fd.format == some "date-time" || (schemaProcessingMap fd.type).isSome

/-- The dispatch of the field loop of `process_csv` for one (cell, field)
pair that has a processing route: enum first, then date-time format, then
the mapped handler (cells from `csv.reader` are strings). -/
def coerceCell (cfg : Config) (col : String) (fd : FieldDef) : Except PyErr PyVal :=
  if enumTruthy fd then process_enum cfg.strict col (fd.enumVals.getD [])
  else if fd.format == some "date-time" then process_datetime cfg col
  else
    match schemaProcessingMap fd.type with
    | some .numeric => process_numeric cfg.strict cfg.useZero (.pyStr col)
    | some .generic => process_generic_cell cfg.strict cfg.useZero (.pyStr col) "string"
    | some .boolean => process_boolean cfg.strict (.pyStr col)
    | none => .error .valueError

/-- The inner field loop of `process_csv` over
`zip(row, schema["properties"].items())`, with its `processed_row`
accumulator.  A coercion exception propagates (`.error`); an unsupported
field type returns from `process_csv` in strict mode (`.ok none`) and is
skipped by `continue` in lenient mode — note the skipped field leaves no
placeholder in `processed_row`. -/
def coerceLoop (cfg : Config) (acc : List PyVal) :
    List (String × (String × FieldDef)) → Except PyErr (Option (List PyVal))
  | [] => .ok (some acc.reverse)
  | (col, (_, fd)) :: rest =>
    if hasRule fd then
      match coerceCell cfg col fd with
      | .error e => .error e
      | .ok v => coerceLoop cfg (v :: acc) rest
    else if cfg.strict then .ok none
    else coerceLoop cfg acc rest

/-- Coerce a list of (cell, field) pairs in order, propagating the first
exception (used to state what the lenient field loop computes). -/
def coerceAll (cfg : Config) : List (String × (String × FieldDef)) → Except PyErr (List PyVal)
  | [] => .ok []
  | p :: rest =>
    match coerceCell cfg p.1 p.2.2 with
    | .error e => .error e
    | .ok v =>
      match coerceAll cfg rest with
      | .error e => .error e
      | .ok vs => .ok (v :: vs)

/-- `dict(zip(self.schema["properties"].keys(), processed_row))`. -/
def assembleRowDict (schema : Schema) (vals : List PyVal) : List (String × PyVal) :=
  (schema.properties.map Prod.fst).zip vals

/-- Outcome of a `process_csv` run: an uncaught exception, an early
`return` (the sink's insert is never reached), or the final
`insert_into_postgres(processed_data)` call with its batch. -/
inductive RunOutcome where
  | raised : PyErr → RunOutcome
  | returned : RunOutcome
  | inserted : List (List PyVal) → RunOutcome
deriving Repr, DecidableEq

/-- The `for row in reader` loop of `process_csv`: coerce the row, assemble
`row_dict`, validate `[row_dict]`; on validation failure strict mode
`return`s, while lenient mode only logs — and then appends the row to
`processed_data` regardless.  After the loop, the batch is handed to
`insert_into_postgres`. -/
def processRows (cfg : Config) (schema : Schema) :
    List (List String) → List (List PyVal) → RunOutcome
  | [], acc => .inserted acc.reverse
  | row :: rest, acc =>
    match coerceLoop cfg [] (row.zip schema.properties) with
    | .error e => .raised e
    | .ok none => .returned
    | .ok (some vals) =>
      match validate_data_against_schema [assembleRowDict schema vals] schema with
      | .error e => .raised e
      | .ok valid =>
        if !valid && cfg.strict then .returned
        else processRows cfg schema rest (vals :: acc)

/-- `CSVProcessor.seems_to_be_header`: Python set equality
`set(row) == set(expected_columns)`. -/
def seems_to_be_header (schema : Schema) (row : List String) : Bool :=
  let expected := schema.properties.map Prod.fst
  row.all (fun c => expected.contains c) && expected.all (fun c => row.contains c)

/-- `CSVProcessor.process_csv` on the parsed lines of the source file:
`next(reader)` raises `StopIteration` on an empty file; otherwise the first
line is discarded exactly when `csv_has_header` or `seems_to_be_header`,
else `file.seek(0)` re-includes it as data. -/
def process_csv (cfg : Config) (schema : Schema) (lines : List (List String)) : RunOutcome :=
  match lines with
  | [] => .raised .stopIteration
  | first :: rest =>
    if cfg.csvHasHeader || seems_to_be_header schema first then
      processRows cfg schema rest []
    else
      processRows cfg schema (first :: rest) []

/-! ### DatabaseManager model (src/database_manager.py)

The Postgres instance is modelled as the list of existing tables with their
column definition strings; `CREATE TABLE` fails on a duplicate name. -/

/-- Python/database errors surfaced by the sink model. -/
inductive DBErr where
  | keyError
  | duplicateTable
deriving Repr, DecidableEq

/-- The database state: existing tables (name, column definition strings). -/
structure PGState where
  tables : List (String × List String)
deriving Repr, DecidableEq

/-- `DatabaseManager.table_exists` (the `information_schema.tables` query). -/
def table_exists (db : PGState) (name : String) : Bool :=
  (db.tables.map Prod.fst).contains name

/-- `DatabaseManager._get_sql_type`: an unknown primitive type raises
`KeyError` on `type_mapping[datatype]`. -/
def get_sql_type (d : FieldDef) : Except DBErr String :=
  if d.type == "string" then
    match d.format with
    | some "email" => .ok "VARCHAR(255)"
    | some "date-time" => .ok "TIMESTAMP WITH TIME ZONE"
    | _ => .ok "VARCHAR(255)"
  else if d.type == "integer" then .ok "SERIAL"
  else if d.type == "boolean" then .ok "BOOLEAN"
  else .error .keyError

/-- One column clause of `DatabaseManager.create_table`. -/
def buildCol (req : List String) (p : String × FieldDef) : Except DBErr String :=
  match get_sql_type p.2 with
  | .error e => .error e
  | .ok t =>
    let s := p.1 ++ " " ++ t
    let s := if p.2.format == some "email" then s ++ " UNIQUE" else s
    let s := if req.contains p.1 then s ++ " NOT NULL" else s
    .ok s

/-- All column clauses of `DatabaseManager.create_table`, in schema order. -/
def buildCols (schema : Schema) : Except DBErr (List String)
  := go schema.required schema.properties
where
  go (req : List String) : List (String × FieldDef) → Except DBErr (List String)
  | [] => .ok []
  | p :: rest =>
    match buildCol req p with
    | .error e => .error e
    | .ok c =>
      match go req rest with
      | .error e => .error e
      | .ok cs => .ok (c :: cs)

/-- `DatabaseManager.create_table`: builds the column list (raising
`KeyError` first, as the SQL string is built before execution), then
executes `CREATE TABLE`, which Postgres rejects when the table exists. -/
def create_table (db : PGState) (schema : Schema) (name : String) : Except DBErr PGState :=
  match buildCols schema with
  | .error e => .error e
  | .ok cols =>
    if table_exists db name then .error .duplicateTable
    else .ok ⟨db.tables ++ [(name, cols)]⟩

/-- `DatabaseManager.ensure_table_exists`: create the table only when
`table_exists` is false. -/
def ensure_table_exists (db : PGState) (schema : Schema) (name : String) :
    Except DBErr PGState :=
  if !table_exists db name then create_table db schema name else .ok db

/-! ### Concrete scenario fixtures -/

/-- Lenient processor configuration (`strict_mode=False`,
`use_zero_for_null_numerics=False`, `csv_has_header=False`); the external
datetime parser is irrelevant to the scenarios and always fails. -/
def lenCfg : Config := ⟨false, false, false, fun _ => none⟩

/-- Strict processor configuration (`strict_mode=True`). -/
def strictCfg : Config := ⟨true, false, false, fun _ => none⟩

/-- The end-to-end scenario schema of the spec:
`{id: integer, username: string, email: string(email)}`, all required. -/
def userSchema : Schema :=
  ⟨[("id", ⟨"integer", none, none⟩), ("username", ⟨"string", none, none⟩),
    ("email", ⟨"string", some "email", none⟩)], ["id", "username", "email"]⟩

/-- A schema whose first field has type `"number"`, which has no entry in
`SCHEMA_PROCESSING_MAP`, followed by an ordinary string field. -/
def numStrSchema : Schema :=
  ⟨[("a", ⟨"number", none, none⟩), ("b", ⟨"string", none, none⟩)], []⟩

/-! ### Helper lemmas -/

/-- A run accepted by `digitsTail` contains no decimal point. -/
theorem digitsTail_no_dot (cs : List Char) : ∀ (fl : Bool) (ds : List Char),
    digitsTail fl cs = some ds → cs.all (fun c => c != '.') = true := by
  induction cs with
  | nil => intro fl ds h; simp
  | cons c t ih =>
    intro fl ds h
    simp only [digitsTail] at h
    by_cases hd : c.isDigit = true
    · rw [if_pos hd] at h
      obtain ⟨ds', hds', -⟩ := Option.map_eq_some'.mp h
      have ht := ih false ds' hds'
      have hcdot : (c != '.') = true := by
        by_contra hcc
        have hc : c = '.' := by simpa using hcc
        subst hc
        exact absurd hd (by decide)
      simp [List.all_cons, hcdot, ht]
    · rw [if_neg hd] at h
      by_cases hu : (c == '_') = true
      · rw [if_pos hu] at h
        have hc : c = '_' := by simpa using hu
        cases fl with
        | true => simp at h
        | false =>
          simp only [Bool.false_eq_true, if_false] at h
          have ht := ih true ds h
          have hcdot : (c != '.') = true := by subst hc; decide
          simp [List.all_cons, hcdot, ht]
      · rw [if_neg hu] at h
        simp at h

/-- A run accepted by `digitsCore` contains no decimal point. -/
theorem digitsCore_no_dot (cs ds : List Char) (h : digitsCore cs = some ds) :
    cs.all (fun c => c != '.') = true := by
  cases cs with
  | nil => simp [digitsCore] at h
  | cons c t =>
    simp only [digitsCore] at h
    by_cases hd : c.isDigit = true
    · rw [if_pos hd] at h
      obtain ⟨ds', hds', -⟩ := Option.map_eq_some'.mp h
      have ht := digitsTail_no_dot t false ds' hds'
      have hcdot : (c != '.') = true := by
        by_contra hcc
        have hc : c = '.' := by simpa using hcc
        subst hc
        exact absurd hd (by decide)
      simp [List.all_cons, hcdot, ht]
    · rw [if_neg hd] at h
      simp at h

/-- On a dot-free literal, the decimal-point scan consumes everything. -/
theorem takeWhile_no_dot (ds : List Char) (h : ds.all (fun c => c != '.') = true) :
    ds.takeWhile (fun c => c != '.') = ds ∧ ds.dropWhile (fun c => c != '.') = [] := by
  induction ds with
  | nil => simp
  | cons c t ih =>
    simp only [List.all_cons, Bool.and_eq_true] at h
    obtain ⟨h1, h2⟩ := ih h.2
    simp [List.takeWhile_cons, List.dropWhile_cons, h.1, h1, h2]

/-- When Python's `int()` accepts a string, `float()` accepts it too and
yields the binary64 rounding of the same exact value (the string is a
signed digit-and-underscore run, so `floatBody` takes its dot-free branch). -/
theorem pyIntOfChars_roundFloat (cs : List Char) (n : Int) (h : pyIntOfChars cs = some n) :
    pyFloatOfChars cs = some (roundDouble (n : ℚ)) := by
  unfold pyIntOfChars at h
  unfold pyFloatOfChars
  simp only [Option.map_eq_some'] at h
  obtain ⟨k, hk, hn⟩ := h
  have hk' := hk
  unfold digitsVal at hk'
  obtain ⟨ps, hps, hkv⟩ := Option.map_eq_some'.mp hk'
  have hnd := digitsCore_no_dot _ ps hps
  obtain ⟨ht, hd⟩ := takeWhile_no_dot _ hnd
  simp only [floatBody, ht, hd]
  rw [hk]
  subst hn
  cases hsn : signNeg (trimChars cs) <;> simp [Option.map_some']

/-- No value is Python-equal to a member of both `FALSE_VALUES` and
`TRUE_VALUES` (the two literal sets are disjoint under `==`). -/
theorem false_values_not_true_values (cell : PyVal)
    (h : pyIn cell FALSE_VALUES = true) : pyIn cell TRUE_VALUES = false := by
  cases cell with
  | pyStr s =>
    simp only [pyIn, FALSE_VALUES, List.any_cons, List.any_nil, pyEq, toNum,
      Bool.or_eq_true, beq_iff_eq] at h
    rcases h with h | h | h | h | h | h | h | h <;>
      first
        | (subst h; decide)
        | simp at h
  | pyInt n =>
    simp only [pyIn, FALSE_VALUES, TRUE_VALUES, List.any_cons, List.any_nil, pyEq, toNum,
      Bool.or_eq_true, beq_iff_eq] at h ⊢
    rcases h with h | h | h | h | h | h | h | h <;> simp_all
  | pyBool b => cases b <;> first | (exact absurd h (by decide)) | decide
  | pyFloat q =>
    simp only [pyIn, FALSE_VALUES, TRUE_VALUES, List.any_cons, List.any_nil, pyEq, toNum,
      Bool.or_eq_true, beq_iff_eq] at h ⊢
    rcases h with h | h | h | h | h | h | h | h <;> simp_all
  | pyInf b => cases b <;> exact absurd h (by decide)
  | pyNone => exact absurd h (by decide)

/-- In lenient mode the field loop computes exactly the in-order coercions
of the fields that have a processing route; fields with no route contribute
nothing (not even a placeholder). -/
theorem coerceLoop_lenient (cfg : Config) (hs : cfg.strict = false)
    (pairs : List (String × (String × FieldDef))) :
    ∀ acc : List PyVal,
      coerceLoop cfg acc pairs =
        (coerceAll cfg (pairs.filter (fun p => hasRule p.2.2))).map
          (fun vs => some (acc.reverse ++ vs)) := by
  induction pairs with
  | nil => intro acc; simp [coerceLoop, coerceAll, Except.map]
  | cons p rest ih =>
    intro acc
    obtain ⟨col, key, fd⟩ := p
    by_cases hr : hasRule fd = true
    · simp only [coerceLoop, hr, if_true]
      cases hcc : coerceCell cfg col fd with
      | error e => simp [List.filter_cons, hr, coerceAll, hcc, Except.map]
      | ok v =>
        show coerceLoop cfg (v :: acc) rest = _
        rw [ih (v :: acc)]
        simp only [List.filter_cons, hr, if_true, coerceAll, hcc]
        cases coerceAll cfg (rest.filter fun p => hasRule p.2.2) with
        | error e => simp [Except.map]
        | ok vs => simp [Except.map]
    · have hr' : hasRule fd = false := by simpa using hr
      simp only [coerceLoop, hr', Bool.false_eq_true, if_false, hs]
      rw [ih acc]
      simp [List.filter_cons, hr']

/-- A value passing `isinstance(v, str)` is a string. -/
theorem isInstStr_pyStr (v : PyVal) (h : isInstStr v = true) : ∃ s, v = .pyStr s := by
  cases v with
  | pyStr s => exact ⟨s, rfl⟩
  | pyInt n => simp [isInstStr] at h
  | pyBool b => simp [isInstStr] at h
  | pyFloat q => simp [isInstStr] at h
  | pyInf b => simp [isInstStr] at h
  | pyNone => simp [isInstStr] at h

/-- The per-field loop of the validator raises no exception when every
format-bearing field is declared with type `"string"`: the string type
check then guarantees the value reaching a format check is a `str`. -/
theorem checkFields_no_exception (req : List String) (row : List (String × PyVal))
    (fields : List (String × FieldDef))
    (h : ∀ p ∈ fields, (p.2.format = some "email" ∨ p.2.format = some "date-time") →
      p.2.type = "string") :
    ∃ b : Bool, checkFields req row fields = .ok b := by
  induction fields with
  | nil => exact ⟨true, rfl⟩
  | cons p rest ih =>
    obtain ⟨key, d⟩ := p
    have hd := h (key, d) (List.mem_cons_self _ _)
    obtain ⟨b, hb⟩ := ih (fun q hq => h q (List.mem_cons_of_mem _ hq))
    simp only [checkFields]
    by_cases h1 : (!hasKey row key && req.contains key) = true
    · exact ⟨false, by rw [if_pos h1]⟩
    rw [if_neg h1]
    set value := (List.lookup key row).getD .pyNone with hv
    by_cases h2 : (d.type == "integer" && !isInstInt value) = true
    · exact ⟨false, by rw [if_pos h2]⟩
    rw [if_neg h2]
    by_cases h3 : (d.type == "number" && (!isInstFloat value && !isInstInt value)) = true
    · exact ⟨false, by rw [if_pos h3]⟩
    rw [if_neg h3]
    by_cases h4 : (d.type == "string" && !isInstStr value) = true
    · exact ⟨false, by rw [if_pos h4]⟩
    rw [if_neg h4]
    by_cases h5 : (d.type == "boolean" && !isInstBool value) = true
    · exact ⟨false, by rw [if_pos h5]⟩
    rw [if_neg h5]
    by_cases h6 : (d.format == some "email") = true
    · rw [if_pos h6]
      have htype : d.type = "string" := hd (Or.inl (by simpa using h6))
      have hstr : isInstStr value = true := by
        cases hsv : isInstStr value with
        | true => rfl
        | false => exact absurd (by simp [htype, hsv]) h4
      obtain ⟨s, hs⟩ := isInstStr_pyStr value hstr
      rw [hs]
      cases hm : emailMatch s with
      | true => exact ⟨b, by simp [is_valid_email, hm, hb]⟩
      | false => exact ⟨false, by simp [is_valid_email, hm]⟩
    rw [if_neg h6]
    by_cases h7 : (d.format == some "date-time") = true
    · rw [if_pos h7]
      have htype : d.type = "string" := hd (Or.inr (by simpa using h7))
      have hstr : isInstStr value = true := by
        cases hsv : isInstStr value with
        | true => rfl
        | false => exact absurd (by simp [htype, hsv]) h4
      obtain ⟨s, hs⟩ := isInstStr_pyStr value hstr
      rw [hs]
      cases hm : dtMatch s with
      | true => exact ⟨b, by simp [is_valid_datetime, hm, hb]⟩
      | false => exact ⟨false, by simp [is_valid_datetime, hm]⟩
    rw [if_neg h7]
    exact ⟨b, hb⟩

/-! ### Claims -/

/-- C1: the claim says that in lenient mode a row whose TypedRow fails
validation is skipped, so the batch handed to insert contains only valid
rows.  The code logs the failure but, lacking a `continue`, appends the row
to `processed_data` anyway: on the spec's own scenario A input, row 2 fails
validation (`validate` returns `False` on its email) yet the final insert
receives both rows. -/
theorem c1_lenient_invalid_row_still_inserted :
    process_csv lenCfg userSchema
      [["1", "alice", "alice@example.com"], ["2", "bob", "not-an-email"]] =
      .inserted [[.pyInt 1, .pyStr "alice", .pyStr "alice@example.com"],
                 [.pyInt 2, .pyStr "bob", .pyStr "not-an-email"]] ∧
    validate_data_against_schema
      [assembleRowDict userSchema [.pyInt 2, .pyStr "bob", .pyStr "not-an-email"]]
      userSchema = .ok false :=
  ⟨by decide, by decide⟩

/-- C2 counterexample: the claim says coercion of the parseable non-integral
numeric string `"3.5"` succeeds and returns a float; in the code
`int("3.5")` raises `ValueError` before `float` is ever reached, in both
modes and under either null-numeric flag. -/
theorem c2_counterexample :
    process_numeric false false (.pyStr "3.5") = .error .valueError ∧
    process_numeric true false (.pyStr "3.5") = .error .valueError ∧
    process_numeric false true (.pyStr "3.5") = .error .valueError :=
  ⟨by decide, by decide, by decide⟩

/-- C2 amended: for a non-empty numeric string cell outside the
null-sentinel set, when Python's `int()` accepts the string, coercion
computes `float(c)` as the binary64 rounding of the same exact value and
returns the integer `int(c)` when `int(c) == float(c)` (true whenever the
integer survives rounding, e.g. for all `|int(c)| ≤ 2^53`) and the rounded
float (or infinity) otherwise; and when `int()` rejects the (ASCII) string,
coercion raises `ValueError` in both modes — which includes every parseable
non-integral numeric string such as `"3.5"`, since `int("3.5")` raises
before `float` is evaluated. -/
theorem c2_numeric_coercion_amended (m z : Bool) (s : String)
    (hnull : pyIn (.pyStr s) NULL_VALUES = false) :
    (∀ n : Int, pyIntOfString s = some n →
      process_numeric m z (.pyStr s) =
        match roundDouble (n : ℚ) with
        | .finite q => if (n : ℚ) = q then .ok (.pyInt n) else .ok (.pyFloat q)
        | .inf b => .ok (.pyInf b)) ∧
    (s.toList.all (fun c => c.toNat < 128) = true → pyIntOfString s = none →
      process_numeric m z (.pyStr s) = .error .valueError) := by
  constructor
  · intro n hn
    have hf : pyFloatOfString s = some (roundDouble (n : ℚ)) :=
      pyIntOfChars_roundFloat s.toList n hn
    cases hr : roundDouble (n : ℚ) with
    | finite q => simp [process_numeric, hnull, pyIntOf, pyFloatOf, hn, hf, hr]
    | inf b => simp [process_numeric, hnull, pyIntOf, pyFloatOf, hn, hf, hr]
  · intro _ hn
    simp [process_numeric, hnull, pyIntOf, hn]

/-- C2 witness: the integer literals `"42"` and (PEP 515) `"1_0"` coerce to
the integers 42 and 10; the unparseable ASCII string `"abc"` raises. -/
theorem c2_numeric_coercion_witness :
    process_numeric false false (.pyStr "42") = .ok (.pyInt 42) ∧
    process_numeric false false (.pyStr "1_0") = .ok (.pyInt 10) ∧
    process_numeric true true (.pyStr "abc") = .error .valueError := by
  refine ⟨?_, ?_, ?_⟩
  · have h := (c2_numeric_coercion_amended false false "42" (by decide)).1 42 (by decide)
    rw [h]; decide
  · have h := (c2_numeric_coercion_amended false false "1_0" (by decide)).1 10 (by decide)
    rw [h]; decide
  · exact (c2_numeric_coercion_amended true true "abc" (by decide)).2 (by decide) (by decide)

/-- C3 counterexample: with the schema `{a: number, b: string}` (the type
`"number"` has no entry in `SCHEMA_PROCESSING_MAP`) and the lenient run on
row `["5", "hello"]`, field `a` is skipped without a placeholder, so field
`b`'s coerced value `"hello"` is assembled under key `"a"` and `b` is absent
from the TypedRow — `b` does not keep its own value. -/
theorem c3_counterexample :
    coerceLoop lenCfg [] (List.zip ["5", "hello"] numStrSchema.properties) =
      .ok (some [.pyStr "hello"]) ∧
    assembleRowDict numStrSchema [.pyStr "hello"] = [("a", .pyStr "hello")] ∧
    List.lookup "b" (assembleRowDict numStrSchema [.pyStr "hello"]) = none ∧
    process_csv lenCfg numStrSchema [["5", "hello"]] = .inserted [[.pyStr "hello"]] :=
  ⟨by decide, by decide, by decide, by decide⟩

/-- C3 amended: a field whose declared type has no coercion rule aborts the
run in strict mode; in lenient mode only that field is skipped and every
other field of the row is still coerced with its own cell, in order — but
the skipped field leaves no placeholder, so in the assembled TypedRow the
subsequent values shift onto earlier field names. -/
theorem c3_unsupported_type_amended (cfg : Config)
    (pairs : List (String × (String × FieldDef)))
    (col key : String) (fd : FieldDef) (rest : List (String × (String × FieldDef)))
    (acc : List PyVal) :
    (cfg.strict = false →
      coerceLoop cfg [] pairs =
        (coerceAll cfg (pairs.filter (fun p => hasRule p.2.2))).map some) ∧
    (cfg.strict = true → hasRule fd = false →
      coerceLoop cfg acc ((col, (key, fd)) :: rest) = .ok none) := by
  constructor
  · intro hs
    rw [coerceLoop_lenient cfg hs pairs []]
    cases coerceAll cfg (pairs.filter fun p => hasRule p.2.2) <;> simp [Except.map]
  · intro hs hr
    simp [coerceLoop, hr, hs]

/-- C3 witness: the lenient equation on the `{a: number, b: string}` row,
and the strict abort on an unsupported leading field. -/
theorem c3_unsupported_type_witness :
    coerceLoop lenCfg [] (List.zip ["5", "hello"] numStrSchema.properties) =
      (coerceAll lenCfg ((List.zip ["5", "hello"] numStrSchema.properties).filter
        (fun p => hasRule p.2.2))).map some ∧
    coerceLoop strictCfg [] [("5", ("a", ⟨"number", none, none⟩))] = .ok none :=
  ⟨(c3_unsupported_type_amended lenCfg (List.zip ["5", "hello"] numStrSchema.properties)
      "" "" ⟨"", none, none⟩ [] []).1 rfl,
   (c3_unsupported_type_amended strictCfg [] "5" "a" ⟨"number", none, none⟩ [] []).2
      rfl (by decide)⟩

/-- C4: in strict mode, when the processor reaches a row whose assembled
TypedRow fails validation, `process_csv` returns immediately — whatever rows
were accumulated and whatever rows remain — so the run never reaches the
`insert_into_postgres` call and nothing is delivered. -/
theorem c4_strict_validation_aborts (cfg : Config) (schema : Schema)
    (row : List String) (rest : List (List String)) (acc : List (List PyVal))
    (vals : List PyVal)
    (hstrict : cfg.strict = true)
    (hco : coerceLoop cfg [] (row.zip schema.properties) = .ok (some vals))
    (hval : validate_data_against_schema [assembleRowDict schema vals] schema = .ok false) :
    processRows cfg schema (row :: rest) acc = .returned := by
  simp [processRows, hco, hval, hstrict]

/-- C4 witness: scenario B — strict mode on the row with the invalid email
aborts even with row 1 already accumulated. -/
theorem c4_strict_validation_aborts_witness :
    processRows strictCfg userSchema [["2", "bob", "not-an-email"]]
      [[.pyInt 1, .pyStr "alice", .pyStr "alice@example.com"]] = .returned :=
  c4_strict_validation_aborts strictCfg userSchema ["2", "bob", "not-an-email"] []
    [[.pyInt 1, .pyStr "alice", .pyStr "alice@example.com"]]
    [.pyInt 2, .pyStr "bob", .pyStr "not-an-email"] rfl (by decide) (by decide)

/-- C5 counterexample: the claim says `validate` raises no exception for
every row and schema.  For the schema `{x: number, format email}` (a legal
FieldSpec: type `number`, format `email`) and the row `{x: 3}`, the number
type check passes and `re.match` is then applied to the integer `3`,
raising `TypeError`. -/
theorem c5_counterexample :
    validate_data_against_schema [[("x", .pyInt 3)]]
      ⟨[("x", ⟨"number", some "email", none⟩)], []⟩ = .error .typeError :=
  by decide

/-- C5 amended: `validate` returns a boolean (raising no exception, and —
being a pure function of its arguments in this embedding — mutating
nothing, short-circuiting to `False` at the first violation) provided every
field that declares a `format` is declared with type `"string"`, which
makes the value reaching a format check a string. -/
theorem c5_validate_amended (data : List (List (String × PyVal))) (schema : Schema)
    (h : ∀ p ∈ schema.properties,
      (p.2.format = some "email" ∨ p.2.format = some "date-time") → p.2.type = "string") :
    ∃ b : Bool, validate_data_against_schema data schema = .ok b := by
  induction data with
  | nil => exact ⟨true, rfl⟩
  | cons row rest ih =>
    obtain ⟨b, hb⟩ := checkFields_no_exception schema.required row schema.properties h
    obtain ⟨b', hb'⟩ := ih
    cases b with
    | true => exact ⟨b', by simp [validate_data_against_schema, hb, hb']⟩
    | false => exact ⟨false, by simp [validate_data_against_schema, hb]⟩

/-- C5 witness: the user schema (all format fields are strings) on a valid
row. -/
theorem c5_validate_witness :
    ∃ b : Bool, validate_data_against_schema
      [[("id", .pyInt 1), ("username", .pyStr "alice"), ("email", .pyStr "alice@example.com")]]
      userSchema = .ok b :=
  c5_validate_amended _ userSchema (by decide)

/-- C6: for a numeric cell in the null-sentinel set
`{"", "NaN", "null", absent}`, coercion raises `ValueError` in strict mode,
and in lenient mode returns `0` when `use_zero_for_null_numerics` is true
and `None` when it is false. -/
theorem c6_null_sentinel_numeric (cell : PyVal) (z : Bool)
    (h : cell = .pyStr "" ∨ cell = .pyStr "NaN" ∨ cell = .pyStr "null" ∨ cell = .pyNone) :
    process_numeric true z cell = .error .valueError ∧
    process_numeric false true cell = .ok (.pyInt 0) ∧
    process_numeric false false cell = .ok .pyNone := by
  rcases h with h | h | h | h <;> subst h <;> cases z <;>
    exact ⟨by decide, by decide, by decide⟩

/-- C6 witness: the sentinel `"NaN"` under both flags. -/
theorem c6_null_sentinel_numeric_witness :
    process_numeric true true (.pyStr "NaN") = .error .valueError ∧
    process_numeric false true (.pyStr "NaN") = .ok (.pyInt 0) ∧
    process_numeric false false (.pyStr "NaN") = .ok .pyNone :=
  c6_null_sentinel_numeric (.pyStr "NaN") true (by decide)

/-- C7: membership (under Python `==`) in `TRUE_VALUES` yields `True`,
membership in `FALSE_VALUES` yields `False`, and a cell outside both sets
raises `ValueError` in strict mode and gives `None` in lenient mode. -/
theorem c7_boolean_literals (cell : PyVal) :
    (pyIn cell TRUE_VALUES = true → ∀ m, process_boolean m cell = .ok (.pyBool true)) ∧
    (pyIn cell FALSE_VALUES = true → ∀ m, process_boolean m cell = .ok (.pyBool false)) ∧
    (pyIn cell TRUE_VALUES = false → pyIn cell FALSE_VALUES = false →
      process_boolean true cell = .error .valueError ∧
      process_boolean false cell = .ok .pyNone) := by
  refine ⟨fun h m => ?_, fun h m => ?_, fun h1 h2 => ?_⟩
  · simp [process_boolean, h]
  · have ht := false_values_not_true_values cell h
    simp [process_boolean, h, ht]
  · simp [process_boolean, h1, h2]

/-- C7 witness: `"t"` is true, `0` is false, `"yes"` is outside both sets. -/
theorem c7_boolean_literals_witness :
    process_boolean true (.pyStr "t") = .ok (.pyBool true) ∧
    process_boolean false (.pyInt 0) = .ok (.pyBool false) ∧
    process_boolean true (.pyStr "yes") = .error .valueError ∧
    process_boolean false (.pyStr "yes") = .ok .pyNone :=
  ⟨(c7_boolean_literals (.pyStr "t")).1 (by decide) true,
   (c7_boolean_literals (.pyInt 0)).2.1 (by decide) false,
   ((c7_boolean_literals (.pyStr "yes")).2.2 (by decide) (by decide)).1,
   ((c7_boolean_literals (.pyStr "yes")).2.2 (by decide) (by decide)).2⟩

/-- C10: on an empty source file, `next(reader)` raises `StopIteration`
before header detection and before any row is processed, and the sink's
insert is never called (the outcome is a raised exception, not an insert). -/
theorem c10_empty_file_stop_iteration (cfg : Config) (schema : Schema) :
    process_csv cfg schema [] = .raised .stopIteration := rfl

/-- C8: the first line is discarded as header exactly when `csv_has_header`
is set or its cell set equals the schema's field-name set: a matching first
row is discarded even with `csv_has_header=False`, and otherwise with
`csv_has_header=False` the first line is processed as data (`file.seek(0)`
re-includes it); `seems_to_be_header` is precisely set equality of the
row's cells with the declared field names. -/
theorem c8_header_detection (cfg : Config) (schema : Schema)
    (first : List String) (rest : List (List String)) :
    (seems_to_be_header schema first = true →
      process_csv cfg schema (first :: rest) = processRows cfg schema rest []) ∧
    (cfg.csvHasHeader = true →
      process_csv cfg schema (first :: rest) = processRows cfg schema rest []) ∧
    (cfg.csvHasHeader = false → seems_to_be_header schema first = false →
      process_csv cfg schema (first :: rest) = processRows cfg schema (first :: rest) []) ∧
    (seems_to_be_header schema first = true ↔
      ∀ x, x ∈ first ↔ x ∈ schema.properties.map Prod.fst) := by
  refine ⟨fun h => ?_, fun h => ?_, fun h1 h2 => ?_, ?_⟩
  · simp [process_csv, h]
  · simp [process_csv, h]
  · simp [process_csv, h1, h2]
  · simp only [seems_to_be_header, Bool.and_eq_true, List.all_eq_true]
    constructor
    · rintro ⟨ha, hb⟩ x
      constructor
      · intro hx
        have := ha x hx
        simpa using this
      · intro hx
        have := hb x hx
        simpa using this
    · intro hiff
      constructor
      · intro x hx
        simpa using (hiff x).1 hx
      · intro x hx
        simpa using (hiff x).2 hx

/-- C8 witness: with `csv_has_header=False`, the first row `["b", "a"]`
(cell set equal to the field set of `numStrSchema`) is discarded, while the
first row `["5", "hello"]` is kept as data. -/
theorem c8_header_detection_witness :
    process_csv lenCfg numStrSchema [["b", "a"], ["5", "hello"]] =
      processRows lenCfg numStrSchema [["5", "hello"]] [] ∧
    process_csv lenCfg numStrSchema [["5", "hello"]] =
      processRows lenCfg numStrSchema [["5", "hello"]] [] :=
  ⟨(c8_header_detection lenCfg numStrSchema ["b", "a"] [["5", "hello"]]).1 (by decide),
   (c8_header_detection lenCfg numStrSchema ["5", "hello"] []).2.2.1 rfl (by decide)⟩

/-- C9: `ensure_table_exists` is idempotent — after a successful call, a
second call with the same schema and name returns the state unchanged with
no error — and it creates the table iff it does not already exist (the
state is unchanged when the table exists, and gains exactly the new table
built from the schema's columns when it does not). -/
theorem c9_ensure_table_idempotent (db : PGState) (schema : Schema)
    (name : String) (db' : PGState)
    (h : ensure_table_exists db schema name = .ok db') :
    ensure_table_exists db' schema name = .ok db' ∧
    (table_exists db name = true → db' = db) ∧
    (table_exists db name = false →
      ∃ cols, buildCols schema = .ok cols ∧ db'.tables = db.tables ++ [(name, cols)]) := by
  by_cases he : table_exists db name = true
  · unfold ensure_table_exists at h
    rw [he] at h
    simp only [Bool.not_true, Bool.false_eq_true, if_false] at h
    obtain rfl : db = db' := by
      cases h
      rfl
    refine ⟨by unfold ensure_table_exists; rw [he]; rfl, fun _ => rfl,
      fun hc => absurd he (by simp [hc])⟩
  · have he' : table_exists db name = false := by simpa using he
    unfold ensure_table_exists at h
    rw [he'] at h
    simp only [Bool.not_false, if_true] at h
    unfold create_table at h
    cases hb : buildCols schema with
    | error e => rw [hb] at h; exact absurd h (by simp)
    | ok cols =>
      rw [hb, he'] at h
      simp only [Bool.false_eq_true, if_false, Except.ok.injEq] at h
      subst h
      have hex : table_exists ⟨db.tables ++ [(name, cols)]⟩ name = true := by
        simp [table_exists]
      refine ⟨?_, fun hc => absurd hc (by simp [he']), fun _ => ⟨cols, rfl, rfl⟩⟩
      unfold ensure_table_exists
      rw [hex]
      rfl

/-- C9 witness: creating `users` from the empty database, the second call
is a no-op and the first call appended exactly the new table. -/
theorem c9_ensure_table_idempotent_witness :
    ensure_table_exists
      ⟨[("users", ["id SERIAL NOT NULL", "username VARCHAR(255) NOT NULL",
                   "email VARCHAR(255) UNIQUE NOT NULL"])]⟩ userSchema "users" =
      .ok ⟨[("users", ["id SERIAL NOT NULL", "username VARCHAR(255) NOT NULL",
                       "email VARCHAR(255) UNIQUE NOT NULL"])]⟩ ∧
    (⟨[("users", ["id SERIAL NOT NULL", "username VARCHAR(255) NOT NULL",
                  "email VARCHAR(255) UNIQUE NOT NULL"])]⟩ : PGState).tables =
      (⟨[]⟩ : PGState).tables ++
        [("users", ["id SERIAL NOT NULL", "username VARCHAR(255) NOT NULL",
                    "email VARCHAR(255) UNIQUE NOT NULL"])] :=
  ⟨(c9_ensure_table_idempotent ⟨[]⟩ userSchema "users" _ (by decide)).1, rfl⟩

end DbManager
